import Mathlib

/-!
Shallow embedding of the CHIP-8 instruction engine (`src/chip8.c`,
`src/unnamed/part_000`).  Machine integers are modelled as `Nat`; a
`% 256` (resp. `% 65536`) is inserted exactly where the C code performs a
conversion to `u8` (resp. `u16`) that can truncate.  Array accesses whose
C index expression can leave the array bounds are modelled as `Option`
results (the out-of-bounds case, undefined behaviour in C, is `none`).
Register indices decoded from an instruction word are 0..15, so they are
modelled as `Fin 16`, matching the decode contract of the spec.
-/

namespace Chip8Emu

abbrev MEMORY_SIZE : Nat := 4096

abbrev PROGRAM_START_ADDRESS : Nat := 0x200

abbrev DISPLAY_HEIGHT : Nat := 32

abbrev DISPLAY_LENGTH : Nat := 64

/-- The machine state, field for field the C `struct chip8`. -/
structure Chip8 where
  memory : Fin MEMORY_SIZE → Nat
  V : Fin 16 → Nat
  I : Nat
  delay_timer : Nat
  sound_timer : Nat
  pc : Nat
  sp : Nat
  stack : Fin 16 → Nat
  keypad : Fin 16 → Nat
  display : Fin (DISPLAY_HEIGHT * DISPLAY_LENGTH / 8) → Nat

/-- Machine at the start of a session: all state zeroed, `pc` at the
program-load address. -/
def freshMachine : Chip8 :=
  { memory := fun _ => 0
    V := fun _ => 0
    I := 0
    delay_timer := 0
    sound_timer := 0
    pc := PROGRAM_START_ADDRESS
    sp := 0
    stack := fun _ => 0
    keypad := fun _ => 0
    display := fun _ => 0 }

/-- `chip8_fetch`: reads `memory[pc]` and `memory[pc+1]`; the two reads are
in bounds only when `pc + 1 < MEMORY_SIZE` (otherwise the C code indexes
outside `memory`, modelled as `none`).  The u16 assembly of the word cannot
truncate since both operands are u8 values, so no mod is inserted there;
`pc += 2` is u16 arithmetic. -/
def chip8_fetch (ch8 : Chip8) : Option (Nat × Chip8) :=
  if h : ch8.pc + 1 < MEMORY_SIZE then
    some ((ch8.memory ⟨ch8.pc, by omega⟩ <<< 8) ||| ch8.memory ⟨ch8.pc + 1, h⟩,
          { ch8 with pc := (ch8.pc + 2) % 65536 })
  else none

/-- `instr_0nnn`: SYS addr, ignored by modern interpreters. -/
def instr_0nnn (ch8 : Chip8) (_nnn : Nat) : Chip8 :=
  ch8

/-- `instr_00e0_cls`: memset of the whole display to 0. -/
def instr_00e0_cls (ch8 : Chip8) : Chip8 :=
  { ch8 with display := fun _ => 0 }

/-- `instr_00ee_ret`: `pc = stack[sp]; sp--`.  The stack read is in bounds
only for `sp < 16`; `sp--` is u8 arithmetic and wraps at 0. -/
def instr_00ee_ret (ch8 : Chip8) : Option Chip8 :=
  if h : ch8.sp < 16 then
    some { ch8 with pc := ch8.stack ⟨ch8.sp, h⟩, sp := (ch8.sp + 255) % 256 }
  else none

/-- `instr_1nnn_jp_addr`: `pc = nnn`. -/
def instr_1nnn_jp_addr (ch8 : Chip8) (nnn : Nat) : Chip8 :=
  { ch8 with pc := nnn }

/-- `instr_2nnn_call_addr`: `sp++; stack[sp] = pc; pc = nnn`.  `sp++` is u8
arithmetic; the stack write is in bounds only when the incremented `sp` is
below 16 (otherwise the C code writes outside `stack`, modelled as `none`).
No overflow check exists in the source. -/
def instr_2nnn_call_addr (ch8 : Chip8) (nnn : Nat) : Option Chip8 :=
  if h : (ch8.sp + 1) % 256 < 16 then
    some { ch8 with
            sp := (ch8.sp + 1) % 256
            stack := Function.update ch8.stack ⟨(ch8.sp + 1) % 256, h⟩ ch8.pc
            pc := nnn }
  else none

/-- `instr_3xkk_se_vx_byte`: skip next instruction if `V[x] == kk`. -/
def instr_3xkk_se_vx_byte (ch8 : Chip8) (x : Fin 16) (kk : Nat) : Chip8 :=
  if ch8.V x = kk then { ch8 with pc := (ch8.pc + 2) % 65536 } else ch8

/-- `instr_4xkk_sne_vx_byte`: skip next instruction if `V[x] != kk`. -/
def instr_4xkk_sne_vx_byte (ch8 : Chip8) (x : Fin 16) (kk : Nat) : Chip8 :=
  if ch8.V x ≠ kk then { ch8 with pc := (ch8.pc + 2) % 65536 } else ch8

/-- `instr_5xy0_se_vx_vy`: skip next instruction if `V[x] == V[y]`. -/
def instr_5xy0_se_vx_vy (ch8 : Chip8) (x y : Fin 16) : Chip8 :=
  if ch8.V x = ch8.V y then { ch8 with pc := (ch8.pc + 2) % 65536 } else ch8

/-- `instr_6xkk_ld_vx_byte`: `V[x] = kk`. -/
def instr_6xkk_ld_vx_byte (ch8 : Chip8) (x : Fin 16) (kk : Nat) : Chip8 :=
  { ch8 with V := Function.update ch8.V x kk }

/-- `instr_7xkk_add_vx_byte`: `V[x] += kk`, u8 arithmetic. -/
def instr_7xkk_add_vx_byte (ch8 : Chip8) (x : Fin 16) (kk : Nat) : Chip8 :=
  { ch8 with V := Function.update ch8.V x ((ch8.V x + kk) % 256) }

/-- `instr_8xy0_ld_vx_vy`: `V[x] = V[y]`. -/
def instr_8xy0_ld_vx_vy (ch8 : Chip8) (x y : Fin 16) : Chip8 :=
  { ch8 with V := Function.update ch8.V x (ch8.V y) }

/-- `instr_8xy1_or_vx_vy`: `V[x] |= V[y]`. -/
def instr_8xy1_or_vx_vy (ch8 : Chip8) (x y : Fin 16) : Chip8 :=
  { ch8 with V := Function.update ch8.V x (ch8.V x ||| ch8.V y) }

/-- `instr_8xy2_and_vx_vy`: `V[x] &= V[y]`. -/
def instr_8xy2_and_vx_vy (ch8 : Chip8) (x y : Fin 16) : Chip8 :=
  { ch8 with V := Function.update ch8.V x (ch8.V x &&& ch8.V y) }

/-- `instr_8xy3_xor_vx_vy`: `V[x] ^= V[y]`. -/
def instr_8xy3_xor_vx_vy (ch8 : Chip8) (x y : Fin 16) : Chip8 :=
  { ch8 with V := Function.update ch8.V x (ch8.V x ^^^ ch8.V y) }

/-- `instr_8xy4_add_vx_vy`: `sum = V[x] + V[y]` into a u16 temporary (which
cannot wrap for u8 operands), then `V[0xF] = sum > 255`, then
`V[x] = (u8)sum`.  The two register writes happen in that order, so when
`x = 0xF` the second overwrites the flag. -/
def instr_8xy4_add_vx_vy (ch8 : Chip8) (x y : Fin 16) : Chip8 :=
  let sum := ch8.V x + ch8.V y
  let V1 := Function.update ch8.V 15 (if sum > 255 then 1 else 0)
  { ch8 with V := Function.update V1 x (sum % 256) }

/-- `instr_8xy5_sub_vx_vy`: `V[0xF] = V[x] > V[y]` (computed from the
original operands), then `V[x] -= V[y]` reading the array *after* the flag
write — there is no temporary in the source.  The u8 subtraction is modelled
as `(a + 256 - b) % 256`, valid since the subtrahend is a u8 value. -/
def instr_8xy5_sub_vx_vy (ch8 : Chip8) (x y : Fin 16) : Chip8 :=
  let V1 := Function.update ch8.V 15 (if ch8.V x > ch8.V y then 1 else 0)
  { ch8 with V := Function.update V1 x ((V1 x + 256 - V1 y) % 256) }

/-- `instr_8xy6_shr_vx`: `V[0xF] = V[x] & 1`, then `V[x] >>= 1` reading the
array after the flag write. -/
def instr_8xy6_shr_vx (ch8 : Chip8) (x : Fin 16) : Chip8 :=
  let V1 := Function.update ch8.V 15 (ch8.V x &&& 1)
  { ch8 with V := Function.update V1 x (V1 x >>> 1) }

/-- `instr_8xy7_subn_vx_vy`: `V[0xF] = V[y] > V[x]`, then
`V[x] = V[y] - V[x]` reading the array after the flag write. -/
def instr_8xy7_subn_vx_vy (ch8 : Chip8) (x y : Fin 16) : Chip8 :=
  let V1 := Function.update ch8.V 15 (if ch8.V y > ch8.V x then 1 else 0)
  { ch8 with V := Function.update V1 x ((V1 y + 256 - V1 x) % 256) }

/-- `instr_8xye_shl_vx`: `V[0xF] = (V[x] >> 7) & 1`, then `V[x] <<= 1`
(u8 arithmetic) reading the array after the flag write. -/
def instr_8xye_shl_vx (ch8 : Chip8) (x : Fin 16) : Chip8 :=
  let V1 := Function.update ch8.V 15 ((ch8.V x >>> 7) &&& 1)
  { ch8 with V := Function.update V1 x ((V1 x <<< 1) % 256) }

/-- `instr_9xy0_sne_vx_vy`: skip next instruction if `V[x] != V[y]`. -/
def instr_9xy0_sne_vx_vy (ch8 : Chip8) (x y : Fin 16) : Chip8 :=
  if ch8.V x ≠ ch8.V y then { ch8 with pc := (ch8.pc + 2) % 65536 } else ch8

/-- `instr_annn_ld_i_addr`: `I = nnn`. -/
def instr_annn_ld_i_addr (ch8 : Chip8) (nnn : Nat) : Chip8 :=
  { ch8 with I := nnn }

/-- `instr_bnnn_jp_v0_addr`: `pc = nnn + V[0]`, stored into the u16 `pc`. -/
def instr_bnnn_jp_v0_addr (ch8 : Chip8) (nnn : Nat) : Chip8 :=
  { ch8 with pc := (nnn + ch8.V 0) % 65536 }

/-- `cxkk_rnd_vx_byte`: `V[x] = get_random_byte() & kk`.  The external
entropy source (`extern u8 get_random_byte`) is modelled as the explicit
argument `byte`. -/
def cxkk_rnd_vx_byte (ch8 : Chip8) (x : Fin 16) (kk : Nat) (byte : Nat) : Chip8 :=
  { ch8 with V := Function.update ch8.V x (byte &&& kk) }

/-- Helper: `chip8_fetch` on an in-bounds `pc`, with the result spelled out. -/
theorem fetch_ok (s : Chip8) (h : s.pc + 1 < MEMORY_SIZE) :
    chip8_fetch s =
      some ((s.memory ⟨s.pc, by omega⟩ <<< 8) ||| s.memory ⟨s.pc + 1, h⟩,
            { s with pc := (s.pc + 2) % 65536 }) := by
  unfold chip8_fetch
  exact dif_pos h

/-- Modelled from the spec: the repository source contains no decode/dispatch
routine (only the per-opcode handlers); §4.2 of the spec describes it.  One
constructor per covered operation, carrying the decoded operands. -/
inductive Instr where
  | sys (nnn : Nat)
  | cls
  | ret
  | jp (nnn : Nat)
  | call (nnn : Nat)
  | seByte (x kk : Nat)
  | sneByte (x kk : Nat)
  | seReg (x y : Nat)
  | ldByte (x kk : Nat)
  | addByte (x kk : Nat)
  | ldReg (x y : Nat)
  | orReg (x y : Nat)
  | andReg (x y : Nat)
  | xorReg (x y : Nat)
  | addReg (x y : Nat)
  | subReg (x y : Nat)
  | shrReg (x : Nat)
  | subnReg (x y : Nat)
  | shlReg (x : Nat)
  | sneReg (x y : Nat)
  | ldIAddr (nnn : Nat)
  | jpV0 (nnn : Nat)
  | rnd (x kk : Nat)

/-- Modelled from the spec: the outcome of decode is either a selected
operation or the distinct "unrecognized encoding" error tag (§4.2, §7). -/
inductive DecodeResult where
  | ok (i : Instr)
  | unrecognized

/-- Modelled from the spec: decode/dispatch is absent from the repository
source; per §4.2 fields are extracted from the 16-bit word by masks and
shifts, the top nibble selects the opcode family, a secondary nibble or low
byte selects the operation inside families 0 and 8, and every encoding that
matches no covered operation yields the distinct `unrecognized` outcome. -/
def decode (w : Nat) : DecodeResult :=
  let nnn := w &&& 0xFFF
  let x := (w >>> 8) &&& 0xF
  let y := (w >>> 4) &&& 0xF
  let kk := w &&& 0xFF
  match w >>> 12 with
  | 0 =>
    if w = 0x00E0 then .ok .cls
    else if w = 0x00EE then .ok .ret
    else .ok (.sys nnn)
  | 1 => .ok (.jp nnn)
  | 2 => .ok (.call nnn)
  | 3 => .ok (.seByte x kk)
  | 4 => .ok (.sneByte x kk)
  | 5 => if w &&& 0xF = 0 then .ok (.seReg x y) else .unrecognized
  | 6 => .ok (.ldByte x kk)
  | 7 => .ok (.addByte x kk)
  | 8 =>
    match w &&& 0xF with
    | 0 => .ok (.ldReg x y)
    | 1 => .ok (.orReg x y)
    | 2 => .ok (.andReg x y)
    | 3 => .ok (.xorReg x y)
    | 4 => .ok (.addReg x y)
    | 5 => .ok (.subReg x y)
    | 6 => .ok (.shrReg x)
    | 7 => .ok (.subnReg x y)
    | 0xE => .ok (.shlReg x)
    | _ => .unrecognized
  | 9 => if w &&& 0xF = 0 then .ok (.sneReg x y) else .unrecognized
  | 0xA => .ok (.ldIAddr nnn)
  | 0xB => .ok (.jpV0 nnn)
  | 0xC => .ok (.rnd x kk)
  | _ => .unrecognized

/-- C3: decode is total over all 65536 instruction words: every word is
either mapped to a specific covered operation or to the `unrecognized`
outcome, and the `unrecognized` outcome is distinct from every selected
operation (so an unrecognized encoding is never a silent no-op). -/
theorem decode_total (w : Nat) (_h : w < 65536) :
    ((∃ i, decode w = DecodeResult.ok i) ∨ decode w = DecodeResult.unrecognized)
    ∧ ∀ i, DecodeResult.unrecognized ≠ DecodeResult.ok i := by
  constructor
  · cases hd : decode w with
    | ok i => exact Or.inl ⟨i, rfl⟩
    | unrecognized => exact Or.inr rfl
  · intro i hcon
    exact DecodeResult.noConfusion hcon

/-- Witness for C3 at the concrete word 0x00E0. -/
theorem decode_total_witness :
    ((∃ i, decode 0x00E0 = DecodeResult.ok i) ∨ decode 0x00E0 = DecodeResult.unrecognized)
    ∧ ∀ i, DecodeResult.unrecognized ≠ DecodeResult.ok i :=
  decode_total 0x00E0 (by decide)

/-- C6: on any state whose `pc` satisfies `pc ≤ MEMORY_SIZE - 2`, fetch
returns the word `(memory[pc] << 8) | memory[pc+1]` (high byte first) and
the same state with `pc` advanced by exactly 2. -/
theorem chip8_fetch_spec (ch8 : Chip8) (h : ch8.pc ≤ MEMORY_SIZE - 2) :
    chip8_fetch ch8 =
      some ((ch8.memory ⟨ch8.pc, by have hm : MEMORY_SIZE = 4096 := rfl; omega⟩ <<< 8) |||
              ch8.memory ⟨ch8.pc + 1, by have hm : MEMORY_SIZE = 4096 := rfl; omega⟩,
            { ch8 with pc := ch8.pc + 2 }) := by
  have hm : MEMORY_SIZE = 4096 := rfl
  rw [fetch_ok ch8 (by omega)]
  rw [Nat.mod_eq_of_lt (by omega : ch8.pc + 2 < 65536)]

/-- Witness for C6 on the fresh machine. -/
theorem chip8_fetch_spec_witness :
    chip8_fetch freshMachine =
      some ((freshMachine.memory ⟨freshMachine.pc, by decide⟩ <<< 8) |||
              freshMachine.memory ⟨freshMachine.pc + 1, by decide⟩,
            { freshMachine with pc := freshMachine.pc + 2 }) :=
  chip8_fetch_spec freshMachine (by decide)

/-- C8: the display bitmap has the packed size 256 = 64*32/8, and after the
00E0 handler every display byte is zero, hence every pixel bit reads as 0. -/
theorem instr_00e0_cls_clears_display :
    DISPLAY_HEIGHT * DISPLAY_LENGTH / 8 = 256
    ∧ ∀ (ch8 : Chip8) (i : Fin (DISPLAY_HEIGHT * DISPLAY_LENGTH / 8)),
        (instr_00e0_cls ch8).display i = 0
        ∧ ∀ n : Nat, Nat.testBit ((instr_00e0_cls ch8).display i) n = false := by
  refine ⟨rfl, fun ch8 i => ⟨rfl, fun n => ?_⟩⟩
  show Nat.testBit 0 n = false
  exact Nat.zero_testBit n

/-- C7: from any state with `sp < 15`, the CALL handler followed by the RET
handler succeeds and restores both `pc` and `sp` to their values before the
CALL handler ran. -/
theorem call_then_ret_roundtrip (ch8 : Chip8) (nnn : Nat) (h : ch8.sp < 15) :
    ∃ s₁ s₂, instr_2nnn_call_addr ch8 nnn = some s₁
      ∧ instr_00ee_ret s₁ = some s₂
      ∧ s₂.pc = ch8.pc ∧ s₂.sp = ch8.sp := by
  have hlt : (ch8.sp + 1) % 256 < 16 := by omega
  refine ⟨{ ch8 with
              sp := (ch8.sp + 1) % 256
              stack := Function.update ch8.stack ⟨(ch8.sp + 1) % 256, hlt⟩ ch8.pc
              pc := nnn },
          { ch8 with
              sp := ((ch8.sp + 1) % 256 + 255) % 256
              stack := Function.update ch8.stack ⟨(ch8.sp + 1) % 256, hlt⟩ ch8.pc
              pc := Function.update ch8.stack ⟨(ch8.sp + 1) % 256, hlt⟩ ch8.pc
                      ⟨(ch8.sp + 1) % 256, hlt⟩ },
          ?_, ?_, ?_, ?_⟩
  · unfold instr_2nnn_call_addr
    exact dif_pos hlt
  · unfold instr_00ee_ret
    exact dif_pos hlt
  · show Function.update ch8.stack ⟨(ch8.sp + 1) % 256, hlt⟩ ch8.pc
        ⟨(ch8.sp + 1) % 256, hlt⟩ = ch8.pc
    exact Function.update_same _ _ _
  · show ((ch8.sp + 1) % 256 + 255) % 256 = ch8.sp
    omega

/-- Witness for C7 on the fresh machine (sp = 0) with target address 0x300. -/
theorem call_then_ret_roundtrip_witness :
    ∃ s₁ s₂, instr_2nnn_call_addr freshMachine 0x300 = some s₁
      ∧ instr_00ee_ret s₁ = some s₂
      ∧ s₂.pc = freshMachine.pc ∧ s₂.sp = freshMachine.sp :=
  call_then_ret_roundtrip freshMachine 0x300 (by decide)

/-- `n` nested CALLs (each to 0x300) starting from a given state. -/
def nestedCalls (c : Chip8) : Nat → Option Chip8
  | 0 => some c
  | n + 1 => (nestedCalls c n).bind fun s => instr_2nnn_call_addr s 0x300

/-- C2: evidence that the engine has no stack-discipline checks.  From a
fresh machine only 15 nested CALLs fit (the handler pre-increments `sp`, so
they occupy `stack[1..15]`); the 16th CALL already indexes `stack[16]`, an
out-of-bounds write with no defined result and no reported error, and the
RET handler at `sp = 0` silently wraps `sp` to 255 instead of reporting a
stack underflow. -/
theorem stack_discipline_unchecked :
    (nestedCalls freshMachine 15).map Chip8.sp = some 15
    ∧ nestedCalls freshMachine 16 = none
    ∧ (instr_00ee_ret freshMachine).map Chip8.sp = some 255 :=
  ⟨rfl, rfl, rfl⟩

/-- State for the C1 counter-evidence, y-alias case: `V[1] = 5`, `V[0xF] = 3`. -/
def subAliasY : Chip8 :=
  { freshMachine with V := Function.update (Function.update freshMachine.V 1 5) 15 3 }

/-- State for the C1 counter-evidence, x-alias case: `V[0xF] = 5`, `V[0] = 3`. -/
def subAliasX : Chip8 :=
  { freshMachine with V := Function.update (Function.update freshMachine.V 15 5) 0 3 }

/-- C1: evidence that the 8xy5 handler does not compute the flag into a
temporary, so register aliasing corrupts the result.  With `x = 1`,
`y = 0xF`, `V[1] = 5`, `V[0xF] = 3` the handler first writes the flag 1 into
`V[0xF]` and then subtracts that flag instead of the operand 3, leaving
`V[1] = 4` where the claim requires `(5 - 3) mod 256 = 2`.  With `x = 0xF`,
`y = 0`, `V[0xF] = 5`, `V[0] = 3` the subtraction overwrites the freshly
written flag, leaving `V[0xF] = 254` where the claim requires the flag 1
(and the difference 2). -/
theorem instr_8xy5_flag_alias_bug :
    (instr_8xy5_sub_vx_vy subAliasY 1 15).V 1 = 4
    ∧ (instr_8xy5_sub_vx_vy subAliasY 1 15).V 1 ≠ (5 - 3) % 256
    ∧ (instr_8xy5_sub_vx_vy subAliasX 15 0).V 15 = 254
    ∧ (instr_8xy5_sub_vx_vy subAliasX 15 0).V 15 ≠ 1
    ∧ (instr_8xy5_sub_vx_vy subAliasX 15 0).V 15 ≠ (5 - 3) % 256 := by
  refine ⟨?_, ?_, ?_, ?_, ?_⟩ <;> decide

/-- State for the C4 counter-evidence: `V[0] = 1`, `V[0xF] = 0`. -/
def addAlias : Chip8 :=
  { freshMachine with V := Function.update freshMachine.V 0 1 }

/-- C4 counterexample: with `x = 0xF`, `y = 0`, `V[0xF] = 0`, `V[0] = 1`,
the 8xy4 handler stores the sum into `V[0xF]` after the flag write, leaving
`V[0xF] = 1` although `a + b = 1` is not greater than 255 — the claimed
flag condition fails in the `x = 0xF` aliased case. -/
theorem instr_8xy4_alias_counterexample :
    (instr_8xy4_add_vx_vy addAlias 15 0).V 15 = 1 ∧ ¬ ((0 : Nat) + 1 > 255) := by
  decide

/-- C4 (amended): for `x ≠ 0xF` (`y` arbitrary, aliased or not) and byte
operands `a`, `b`, the 8xy4 handler leaves `V[x] = (a + b) mod 256` and the
flag `V[0xF] = 1` iff `a + b > 255`; when `x = 0xF` the stored sum
overwrites the carry flag. -/
theorem instr_8xy4_add_carry_spec (ch8 : Chip8) (x y : Fin 16) (a b : Nat)
    (hx : x ≠ 15) (ha : ch8.V x = a) (hb : ch8.V y = b)
    (_ha2 : a < 256) (_hb2 : b < 256) :
    (instr_8xy4_add_vx_vy ch8 x y).V x = (a + b) % 256
    ∧ ((instr_8xy4_add_vx_vy ch8 x y).V 15 = 1 ↔ a + b > 255) := by
  constructor
  · show Function.update
        (Function.update ch8.V 15 (if ch8.V x + ch8.V y > 255 then 1 else 0)) x
        ((ch8.V x + ch8.V y) % 256) x = (a + b) % 256
    rw [Function.update_same, ha, hb]
  · show Function.update
        (Function.update ch8.V 15 (if ch8.V x + ch8.V y > 255 then 1 else 0)) x
        ((ch8.V x + ch8.V y) % 256) 15 = 1 ↔ a + b > 255
    rw [Function.update_noteq (Ne.symm hx), Function.update_same, ha, hb]
    split <;> simp [*]

/-- Witness for C4's amended theorem: `x = y = 0`, `a = b = 1` on `addAlias`. -/
theorem instr_8xy4_add_carry_spec_witness :
    (instr_8xy4_add_vx_vy addAlias 0 0).V 0 = (1 + 1) % 256
    ∧ ((instr_8xy4_add_vx_vy addAlias 0 0).V 15 = 1 ↔ 1 + 1 > 255) :=
  instr_8xy4_add_carry_spec addAlias 0 0 1 1 (by decide) (by decide) (by decide)
    (by decide) (by decide)

/-- The scenario of C5: fetch and execute a 6xkk load, then fetch and
execute a 3xkk compare-and-skip with the same `x` and `kk`, composing the
source's fetch and handler routines. -/
def run6then3 (s : Chip8) (x : Fin 16) (kk : Nat) : Option Chip8 :=
  match chip8_fetch s with
  | none => none
  | some p₁ =>
    match chip8_fetch (instr_6xkk_ld_vx_byte p₁.2 x kk) with
    | none => none
    | some p₂ => some (instr_3xkk_se_vx_byte p₂.2 x kk)

/-- C5 counterexample: from the fresh machine (`pc = 0x200`), 6xkk then
3xkk with `x = 0xA`, `kk = 5` leaves `pc = 0x206`, not the claimed
`pc_before + 4 = 0x204`: each fetch adds 2 and the taken skip adds 2 more. -/
theorem load_then_skip_counterexample :
    (run6then3 freshMachine 10 5).map Chip8.pc = some 0x206
    ∧ (0x206 : Nat) ≠ PROGRAM_START_ADDRESS + 4 :=
  ⟨rfl, by decide⟩

/-- C5 (amended): for every state whose `pc` keeps both fetches in bounds
(`pc + 3 < MEMORY_SIZE`) and all `x`, `kk`, executing 6xkk then 3xkk via
fetch-execute leaves `pc = pc_before + 6`: the two fetches advance `pc` by
4 and the compare, made true by the load, skips the word at
`pc_before + 4`. -/
theorem load_then_skip_pc (s : Chip8) (x : Fin 16) (kk : Nat)
    (h : s.pc + 3 < MEMORY_SIZE) :
    (run6then3 s x kk).map Chip8.pc = some (s.pc + 6) := by
  have hm : MEMORY_SIZE = 4096 := rfl
  have h1 := fetch_ok s (by omega)
  rw [Nat.mod_eq_of_lt (by omega : s.pc + 2 < 65536)] at h1
  have h2 := fetch_ok { s with pc := s.pc + 2, V := Function.update s.V x kk }
    (by show s.pc + 2 + 1 < MEMORY_SIZE; omega)
  dsimp only at h2
  rw [Nat.mod_eq_of_lt (by omega : s.pc + 2 + 2 < 65536)] at h2
  unfold run6then3
  rw [h1]
  dsimp only [instr_6xkk_ld_vx_byte]
  rw [h2]
  simp only [instr_3xkk_se_vx_byte, Function.update_same, Option.map_some',
    Option.some.injEq, if_true]
  omega

/-- Witness for C5's amended theorem on the fresh machine. -/
theorem load_then_skip_pc_witness :
    (run6then3 freshMachine 10 5).map Chip8.pc = some (freshMachine.pc + 6) :=
  load_then_skip_pc freshMachine 10 5 (by decide)

/-- The frame condition of C9: the fields owned by external collaborators
(`memory`, `keypad`, and the two timers) are identical in the two states. -/
def SameFrame (s t : Chip8) : Prop :=
  t.memory = s.memory ∧ t.keypad = s.keypad
    ∧ t.delay_timer = s.delay_timer ∧ t.sound_timer = s.sound_timer

/-- C9: fetch and every implemented opcode handler leave `memory`,
`keypad`, `delay_timer` and `sound_timer` unchanged — the instruction
engine only reads them and never decrements the timers itself. -/
theorem engine_frame_effects :
    (∀ ch8 w ch8', chip8_fetch ch8 = some (w, ch8') → SameFrame ch8 ch8')
    ∧ (∀ ch8 nnn, SameFrame ch8 (instr_0nnn ch8 nnn))
    ∧ (∀ ch8, SameFrame ch8 (instr_00e0_cls ch8))
    ∧ (∀ ch8 ch8', instr_00ee_ret ch8 = some ch8' → SameFrame ch8 ch8')
    ∧ (∀ ch8 nnn, SameFrame ch8 (instr_1nnn_jp_addr ch8 nnn))
    ∧ (∀ ch8 nnn ch8', instr_2nnn_call_addr ch8 nnn = some ch8' → SameFrame ch8 ch8')
    ∧ (∀ ch8 x kk, SameFrame ch8 (instr_3xkk_se_vx_byte ch8 x kk))
    ∧ (∀ ch8 x kk, SameFrame ch8 (instr_4xkk_sne_vx_byte ch8 x kk))
    ∧ (∀ ch8 x y, SameFrame ch8 (instr_5xy0_se_vx_vy ch8 x y))
    ∧ (∀ ch8 x kk, SameFrame ch8 (instr_6xkk_ld_vx_byte ch8 x kk))
    ∧ (∀ ch8 x kk, SameFrame ch8 (instr_7xkk_add_vx_byte ch8 x kk))
    ∧ (∀ ch8 x y, SameFrame ch8 (instr_8xy0_ld_vx_vy ch8 x y))
    ∧ (∀ ch8 x y, SameFrame ch8 (instr_8xy1_or_vx_vy ch8 x y))
    ∧ (∀ ch8 x y, SameFrame ch8 (instr_8xy2_and_vx_vy ch8 x y))
    ∧ (∀ ch8 x y, SameFrame ch8 (instr_8xy3_xor_vx_vy ch8 x y))
    ∧ (∀ ch8 x y, SameFrame ch8 (instr_8xy4_add_vx_vy ch8 x y))
    ∧ (∀ ch8 x y, SameFrame ch8 (instr_8xy5_sub_vx_vy ch8 x y))
    ∧ (∀ ch8 x, SameFrame ch8 (instr_8xy6_shr_vx ch8 x))
    ∧ (∀ ch8 x y, SameFrame ch8 (instr_8xy7_subn_vx_vy ch8 x y))
    ∧ (∀ ch8 x, SameFrame ch8 (instr_8xye_shl_vx ch8 x))
    ∧ (∀ ch8 x y, SameFrame ch8 (instr_9xy0_sne_vx_vy ch8 x y))
    ∧ (∀ ch8 nnn, SameFrame ch8 (instr_annn_ld_i_addr ch8 nnn))
    ∧ (∀ ch8 nnn, SameFrame ch8 (instr_bnnn_jp_v0_addr ch8 nnn))
    ∧ (∀ ch8 x kk byte, SameFrame ch8 (cxkk_rnd_vx_byte ch8 x kk byte)) := by
  refine ⟨?_, fun ch8 nnn => ⟨rfl, rfl, rfl, rfl⟩, fun ch8 => ⟨rfl, rfl, rfl, rfl⟩,
    ?_, fun ch8 nnn => ⟨rfl, rfl, rfl, rfl⟩, ?_,
    ?_, ?_, ?_,
    fun ch8 x kk => ⟨rfl, rfl, rfl, rfl⟩, fun ch8 x kk => ⟨rfl, rfl, rfl, rfl⟩,
    fun ch8 x y => ⟨rfl, rfl, rfl, rfl⟩, fun ch8 x y => ⟨rfl, rfl, rfl, rfl⟩,
    fun ch8 x y => ⟨rfl, rfl, rfl, rfl⟩, fun ch8 x y => ⟨rfl, rfl, rfl, rfl⟩,
    fun ch8 x y => ⟨rfl, rfl, rfl, rfl⟩, fun ch8 x y => ⟨rfl, rfl, rfl, rfl⟩,
    fun ch8 x => ⟨rfl, rfl, rfl, rfl⟩, fun ch8 x y => ⟨rfl, rfl, rfl, rfl⟩,
    fun ch8 x => ⟨rfl, rfl, rfl, rfl⟩, ?_,
    fun ch8 nnn => ⟨rfl, rfl, rfl, rfl⟩, fun ch8 nnn => ⟨rfl, rfl, rfl, rfl⟩,
    fun ch8 x kk byte => ⟨rfl, rfl, rfl, rfl⟩⟩
  · intro ch8 w ch8' h
    unfold chip8_fetch at h
    split at h
    · simp only [Option.some.injEq, Prod.mk.injEq] at h
      obtain ⟨-, rfl⟩ := h
      exact ⟨rfl, rfl, rfl, rfl⟩
    · exact Option.noConfusion h
  · intro ch8 ch8' h
    unfold instr_00ee_ret at h
    split at h
    · simp only [Option.some.injEq] at h
      subst h
      exact ⟨rfl, rfl, rfl, rfl⟩
    · exact Option.noConfusion h
  · intro ch8 nnn ch8' h
    unfold instr_2nnn_call_addr at h
    split at h
    · simp only [Option.some.injEq] at h
      subst h
      exact ⟨rfl, rfl, rfl, rfl⟩
    · exact Option.noConfusion h
  · intro ch8 x kk
    unfold instr_3xkk_se_vx_byte
    split <;> exact ⟨rfl, rfl, rfl, rfl⟩
  · intro ch8 x kk
    unfold instr_4xkk_sne_vx_byte
    split <;> exact ⟨rfl, rfl, rfl, rfl⟩
  · intro ch8 x y
    unfold instr_5xy0_se_vx_vy
    split <;> exact ⟨rfl, rfl, rfl, rfl⟩
  · intro ch8 x y
    unfold instr_9xy0_sne_vx_vy
    split <;> exact ⟨rfl, rfl, rfl, rfl⟩

/-- Witness for C9: the fetch, RET and CALL conjuncts applied on the fresh
machine, each hypothesis discharged by computation. -/
theorem engine_frame_effects_witness :
    SameFrame freshMachine { freshMachine with pc := (freshMachine.pc + 2) % 65536 }
    ∧ SameFrame freshMachine
        { freshMachine with
            pc := freshMachine.stack ⟨freshMachine.sp, by decide⟩
            sp := (freshMachine.sp + 255) % 256 }
    ∧ SameFrame freshMachine
        { freshMachine with
            sp := (freshMachine.sp + 1) % 256
            stack := Function.update freshMachine.stack
              ⟨(freshMachine.sp + 1) % 256, by decide⟩ freshMachine.pc
            pc := 0x300 } :=
  ⟨engine_frame_effects.1 freshMachine _ _ rfl,
   engine_frame_effects.2.2.2.1 freshMachine _ rfl,
   engine_frame_effects.2.2.2.2.2.1 freshMachine 0x300 _ rfl⟩

/-- C10: every covered operation is a function of the machine state and its
decoded operands (equal inputs give equal outputs), and the Cxkk handler is
a function of the state, operands and the externally supplied random byte;
that byte influences only `V[x]`, which receives the byte ANDed with `kk`,
while every other register and field is independent of it. -/
theorem engine_deterministic :
    (∀ s t : Chip8, s = t →
      chip8_fetch s = chip8_fetch t
      ∧ (∀ nnn, instr_0nnn s nnn = instr_0nnn t nnn)
      ∧ instr_00e0_cls s = instr_00e0_cls t
      ∧ instr_00ee_ret s = instr_00ee_ret t
      ∧ (∀ nnn, instr_1nnn_jp_addr s nnn = instr_1nnn_jp_addr t nnn)
      ∧ (∀ nnn, instr_2nnn_call_addr s nnn = instr_2nnn_call_addr t nnn)
      ∧ (∀ x kk, instr_3xkk_se_vx_byte s x kk = instr_3xkk_se_vx_byte t x kk)
      ∧ (∀ x kk, instr_4xkk_sne_vx_byte s x kk = instr_4xkk_sne_vx_byte t x kk)
      ∧ (∀ x y, instr_5xy0_se_vx_vy s x y = instr_5xy0_se_vx_vy t x y)
      ∧ (∀ x kk, instr_6xkk_ld_vx_byte s x kk = instr_6xkk_ld_vx_byte t x kk)
      ∧ (∀ x kk, instr_7xkk_add_vx_byte s x kk = instr_7xkk_add_vx_byte t x kk)
      ∧ (∀ x y, instr_8xy0_ld_vx_vy s x y = instr_8xy0_ld_vx_vy t x y)
      ∧ (∀ x y, instr_8xy1_or_vx_vy s x y = instr_8xy1_or_vx_vy t x y)
      ∧ (∀ x y, instr_8xy2_and_vx_vy s x y = instr_8xy2_and_vx_vy t x y)
      ∧ (∀ x y, instr_8xy3_xor_vx_vy s x y = instr_8xy3_xor_vx_vy t x y)
      ∧ (∀ x y, instr_8xy4_add_vx_vy s x y = instr_8xy4_add_vx_vy t x y)
      ∧ (∀ x y, instr_8xy5_sub_vx_vy s x y = instr_8xy5_sub_vx_vy t x y)
      ∧ (∀ x, instr_8xy6_shr_vx s x = instr_8xy6_shr_vx t x)
      ∧ (∀ x y, instr_8xy7_subn_vx_vy s x y = instr_8xy7_subn_vx_vy t x y)
      ∧ (∀ x, instr_8xye_shl_vx s x = instr_8xye_shl_vx t x)
      ∧ (∀ x y, instr_9xy0_sne_vx_vy s x y = instr_9xy0_sne_vx_vy t x y)
      ∧ (∀ nnn, instr_annn_ld_i_addr s nnn = instr_annn_ld_i_addr t nnn)
      ∧ (∀ nnn, instr_bnnn_jp_v0_addr s nnn = instr_bnnn_jp_v0_addr t nnn)
      ∧ (∀ x kk byte, cxkk_rnd_vx_byte s x kk byte = cxkk_rnd_vx_byte t x kk byte))
    ∧ (∀ (s : Chip8) (x : Fin 16) (kk r₁ r₂ : Nat),
        (cxkk_rnd_vx_byte s x kk r₁).V x = r₁ &&& kk
        ∧ (∀ j, j ≠ x →
            (cxkk_rnd_vx_byte s x kk r₁).V j = (cxkk_rnd_vx_byte s x kk r₂).V j)
        ∧ (cxkk_rnd_vx_byte s x kk r₁).memory = s.memory
        ∧ (cxkk_rnd_vx_byte s x kk r₁).I = s.I
        ∧ (cxkk_rnd_vx_byte s x kk r₁).pc = s.pc
        ∧ (cxkk_rnd_vx_byte s x kk r₁).sp = s.sp
        ∧ (cxkk_rnd_vx_byte s x kk r₁).stack = s.stack
        ∧ (cxkk_rnd_vx_byte s x kk r₁).keypad = s.keypad
        ∧ (cxkk_rnd_vx_byte s x kk r₁).delay_timer = s.delay_timer
        ∧ (cxkk_rnd_vx_byte s x kk r₁).sound_timer = s.sound_timer
        ∧ (cxkk_rnd_vx_byte s x kk r₁).display = s.display) := by
  constructor
  · rintro s t rfl
    exact ⟨rfl, fun _ => rfl, rfl, rfl, fun _ => rfl, fun _ => rfl,
      fun _ _ => rfl, fun _ _ => rfl, fun _ _ => rfl, fun _ _ => rfl,
      fun _ _ => rfl, fun _ _ => rfl, fun _ _ => rfl, fun _ _ => rfl,
      fun _ _ => rfl, fun _ _ => rfl, fun _ _ => rfl, fun _ => rfl,
      fun _ _ => rfl, fun _ => rfl, fun _ _ => rfl, fun _ => rfl,
      fun _ => rfl, fun _ _ _ => rfl⟩
  · intro s x kk r₁ r₂
    refine ⟨Function.update_same _ _ _, fun j hj => ?_,
      rfl, rfl, rfl, rfl, rfl, rfl, rfl, rfl, rfl⟩
    show Function.update s.V x (r₁ &&& kk) j = Function.update s.V x (r₂ &&& kk) j
    rw [Function.update_noteq hj, Function.update_noteq hj]

/-- Witness for C10: the fetch-determinism conjunct at the fresh machine and
the byte-independence of register `V[1]` under two different random bytes. -/
theorem engine_deterministic_witness :
    chip8_fetch freshMachine = chip8_fetch freshMachine
    ∧ (cxkk_rnd_vx_byte freshMachine 0 0xFF 0xAB).V 1
        = (cxkk_rnd_vx_byte freshMachine 0 0xFF 0x12).V 1 :=
  ⟨(engine_deterministic.1 freshMachine freshMachine rfl).1,
   (engine_deterministic.2 freshMachine 0 0xFF 0xAB 0x12).2.1 1 (by decide)⟩

end Chip8Emu
